import Mathlib

/-!
# Verification of the thestral2 core (request dispatcher, relay, KCP transport)

Shallow embedding of the core of the `richardtsai/thestral2` proxy:

* `src/lib/kcp.go` — the framed KCP connection wrapper (`kcpConnWrapper.Read`,
  `kcpConnWrapper.Write`, `kcpConnWrapper.Close`, `sendKeepAlive`), the
  keep-alive manager tick (`KCPTransport.runKeepAliveManager`) and
  `KCPTransport.Dial`.
* `src/app.go` — the request dispatcher (`Thestral.processOneRequest`), the
  bidirectional relay (`Thestral.doRelay`) and its half-copy loop
  (`Thestral.relayHalf`).

Bytes are modelled as `Nat` (the wire bytes produced by the code are < 256;
the model never depends on an upper bound).  Machine-word overflow does not
arise: the Go code guards payload lengths by `len(b) > 0xffffffff` before any
`uint32` conversion, and the model keeps the same guard explicitly.
-/

namespace Thestral

/-! ## KCP framing (src/lib/kcp.go) -/

/-- Frame kind bytes, from the constant block of `src/lib/kcp.go`. -/
def kcpDataPacket : Nat := 0

/-- Close frame kind byte. -/
def kcpClose : Nat := 1

/-- KeepAlive frame kind byte. -/
def kcpKeepAlive : Nat := 2

/-- Big-endian 4-byte encoding of a `uint32`, as produced by
`binary.BigEndian.PutUint32`. -/
def be32 (n : Nat) : List Nat :=
  [n / 2 ^ 24 % 256, n / 2 ^ 16 % 256, n / 2 ^ 8 % 256, n % 256]

/-- Big-endian decoding of 4 bytes, as `binary.BigEndian.Uint32` does. -/
def decodeBE32 (b0 b1 b2 b3 : Nat) : Nat :=
  ((b0 * 256 + b1) * 256 + b2) * 256 + b3

/-- The framed buffer built by `kcpConnWrapper.Write`: one `kcpDataPacket`
kind byte, the 4-byte big-endian payload length, then the payload. -/
def kcpFrame (b : List Nat) : List Nat :=
  kcpDataPacket :: (be32 b.length ++ b)

/-- `kcpConnWrapper.Write`, viewed as the frame it emits onto the underlying
session: payloads longer than `0xffffffff` are rejected up front and nothing
is emitted; otherwise exactly one Data frame is handed to the session. -/
def kcpWrite (b : List Nat) : Except String (List Nat) :=
  if b.length > 2 ^ 32 - 1 then .error "send buffer size exceeds limitation"
  else .ok (kcpFrame b)

/-- `kcpConnWrapper.Write`, viewed as the value returned to the caller:
after the length guard it returns `c.UDPSession.Write(buf)` on the framed
buffer unchanged, where `sessionWrite` stands for the underlying session. -/
def kcpConnWrite (sessionWrite : List Nat → Except String Nat)
    (b : List Nat) : Except String Nat :=
  if b.length > 2 ^ 32 - 1 then .error "send buffer size exceeds limitation"
  else sessionWrite (kcpFrame b)

/-- Result of one `kcpConnWrapper.Read` call: data delivered, end-of-stream
(`io.EOF`), the `invalid KCP header` protocol error, or an error from the
underlying session read. -/
inductive ReadResult where
  | ok (data : List Nat)
  | eof
  | protoErr (b : Nat)
  | ioErr
deriving DecidableEq, Repr

/-- The read-relevant state of a `kcpConnWrapper`: the bytes the underlying
session will deliver, the `rdDataLeft` counter, and the `lastSend` timestamp
(`0` means the connection was marked closed). -/
structure KCPState where
  stream : List Nat
  rdDataLeft : Nat
  lastSend : Int
deriving DecidableEq, Repr

/-- The header loop of `kcpConnWrapper.Read` (the `for c.rdDataLeft == 0`
loop): read one kind byte; on `kcpClose` store `lastSend := 0` and return
end-of-stream; on `kcpDataPacket` read 4 length bytes into `rdDataLeft` and
re-check the loop condition (so a zero length keeps looping); on
`kcpKeepAlive` loop; otherwise fail with a protocol error.  `.inl` is an
early return from `Read`; `.inr (s, L)` is loop exit with `rdDataLeft = L ≠ 0`
and remaining stream `s`.  An underlying read on an exhausted stream is
modelled as an error (`.ioErr`); a blocking stream model is not needed by the
claims. -/
def kcpReadHeaderLoop : List Nat → Int → (ReadResult × KCPState) ⊕ (List Nat × Nat)
  | [], ls => .inl (.ioErr, ⟨[], 0, ls⟩)
  | h :: s, ls =>
    if h = kcpClose then .inl (.eof, ⟨s, 0, 0⟩)
    else if h = kcpDataPacket then
      match s with
      | b0 :: b1 :: b2 :: b3 :: s2 =>
        if decodeBE32 b0 b1 b2 b3 = 0 then kcpReadHeaderLoop s2 ls
        else .inr (s2, decodeBE32 b0 b1 b2 b3)
      | _ => .inl (.ioErr, ⟨[], 0, ls⟩)
    else if h = kcpKeepAlive then kcpReadHeaderLoop s ls
    else .inl (.protoErr h, ⟨s, 0, ls⟩)

/-- The payload phase of `kcpConnWrapper.Read`: the user buffer is trimmed to
`rdDataLeft`, the session read returns at most that many bytes (all of them
when the stream holds enough), and `rdDataLeft` is decremented by the amount
actually read. -/
def kcpReadPayload (bufLen : Nat) (stream : List Nat) (left : Nat)
    (ls : Int) : ReadResult × KCPState :=
  let k := min bufLen left
  if k = 0 then (.ok [], ⟨stream, left, ls⟩)
  else if stream.isEmpty then (.ioErr, ⟨stream, left, ls⟩)
  else
    let n := min k stream.length
    (.ok (stream.take n), ⟨stream.drop n, left - n, ls⟩)

/-- `kcpConnWrapper.Read` with a caller buffer of length `bufLen`: run the
header loop while `rdDataLeft == 0`, then deliver payload bytes. -/
def kcpRead (bufLen : Nat) (st : KCPState) : ReadResult × KCPState :=
  if st.rdDataLeft = 0 then
    match kcpReadHeaderLoop st.stream st.lastSend with
    | .inl r => r
    | .inr (s, L) => kcpReadPayload bufLen s L st.lastSend
  else kcpReadPayload bufLen st.stream st.rdDataLeft st.lastSend

/-- `n` successive `Read` calls, concatenating the delivered bytes; a
non-`ok` result stops the sequence. -/
def readChunks : Nat → Nat → KCPState → List Nat × KCPState
  | 0, _, st => ([], st)
  | n + 1, bufLen, st =>
    match kcpRead bufLen st with
    | (.ok d, st1) =>
      let r := readChunks n bufLen st1
      (d ++ r.1, r.2)
    | (_, st1) => ([], st1)

/-- Number of `Read` calls needed to drain an `L`-byte payload with a
`bufLen`-byte caller buffer: `⌈L / bufLen⌉`. -/
def numReads (L bufLen : Nat) : Nat := (L + bufLen - 1) / bufLen

/-! ## Keep-alive manager (src/lib/kcp.go, runKeepAliveManager) -/

/-- The three atomically maintained timestamps of a `kcpConnWrapper`
(UNIX ns; `lastSend = 0` means the connection was marked closed). -/
structure ConnState where
  lastSend : Int
  lastReadStart : Int
  lastWriteStart : Int
deriving DecidableEq, Repr

/-- What one manager tick does with one connection, following the branch
order of `runKeepAliveManager`. -/
inductive TickAction where
  | removeClosed
  | removeReadTimeout
  | removeWriteTimeout
  | sendKeepAliveAct
  | keepConn
deriving DecidableEq, Repr

/-- The per-connection branch of the manager loop body. -/
def tickAction (now timeout interval : Int) (c : ConnState) : TickAction :=
  if c.lastSend = 0 then .removeClosed
  else if 0 < c.lastReadStart ∧ now - c.lastReadStart > timeout then
    .removeReadTimeout
  else if 0 < c.lastWriteStart ∧ now - c.lastWriteStart > timeout then
    .removeWriteTimeout
  else if now - c.lastSend > interval then .sendKeepAliveAct
  else .keepConn

/-- Whether the tick removes the connection from the live list. -/
def tickRemoves (now timeout interval : Int) (c : ConnState) : Bool :=
  match tickAction now timeout interval c with
  | .removeClosed => true
  | .removeReadTimeout => true
  | .removeWriteTimeout => true
  | _ => false

/-- One full tick of `runKeepAliveManager` over the live list `t.conns`:
every connection whose branch removes it is gone afterwards. -/
def runKeepAliveTick (now timeout interval : Int)
    (conns : List ConnState) : List ConnState :=
  conns.filter fun c => ! tickRemoves now timeout interval c

/-- Effect of `kcpConnWrapper.Close` on the timestamps: store
`lastSend := 0`. -/
def connClose (c : ConnState) : ConnState := { c with lastSend := 0 }

/-- Effect of a completed `kcpConnWrapper.Write` at time `now` on the
timestamps: `lastSend := now`, and `lastWriteStart` is back to `0` after the
deferred store. -/
def connWrite (now : Int) (c : ConnState) : ConnState :=
  { c with lastSend := now, lastWriteStart := 0 }

/-- Effect of `kcpConnWrapper.sendKeepAlive` at time `now` on the
timestamps: `lastSend := now`. -/
def connSendKeepAlive (now : Int) (c : ConnState) : ConnState :=
  { c with lastSend := now }

/-! ## Dial (src/lib/kcp.go, KCPTransport.Dial) -/

/-- A Go buffered channel, as far as blocking on send is concerned. -/
structure BufferedChan where
  capacity : Nat
  pending : Nat
deriving DecidableEq, Repr

/-- `resultCh := make(chan result, 1)` before the helper goroutine's single
send: capacity 1, nothing pending. -/
def dialResultChan : BufferedChan := ⟨1, 0⟩

/-- A send on a Go buffered channel with no receiver blocks exactly when the
buffer is full. -/
def chanSendBlocks (ch : BufferedChan) : Bool :=
  decide (ch.capacity ≤ ch.pending)

/-- Outcome of the underlying `kcp.DialWithOptions` call. -/
inductive DialOutcome where
  | conn
  | dialErr (e : String)
deriving DecidableEq, Repr

/-- What `KCPTransport.Dial` returns: the wrapped connection (`true` marks
that `wrapKCPConn` was applied) or an error. -/
inductive DialResult where
  | ok (wrapped : Bool)
  | err (e : String)
deriving DecidableEq, Repr

/-- `KCPTransport.Dial`: the `select` races the helper's result against
`ctx.Done()`.  `ctxErr = some e` means the context was cancelled (with error
`e`) before the underlying dial completed, so the `ctx.Done()` branch is
taken; otherwise the helper's result is used. -/
def kcpDial (ctxErr : Option String) (outcome : DialOutcome) : DialResult :=
  match ctxErr with
  | some e => .err e
  | none =>
    match outcome with
    | .conn => .ok true
    | .dialErr e => .err e

/-! ## Relay half (src/app.go, Thestral.relayHalf) -/

/-- `relayBufferSize` from `src/app.go`: the fixed size requested from
`GlobalBufPool` for every relay half. -/
def relayBufferSize : Nat := 32 * 1024

/-- One `src.Read(buf)` outcome seen by a relay half: data (at most the
buffer size), end-of-stream (`io.EOF`), or a read error. -/
inductive ReadEvent where
  | data (bs : List Nat)
  | eof
  | rerr
deriving DecidableEq, Repr

/-- One `dst.Write` behaviour: accept up to `k` bytes and return no error,
or accept up to `k` bytes and return an error. -/
inductive WriteResp where
  | accept (k : Nat)
  | werr (k : Nat)
deriving DecidableEq, Repr

/-- How a relay half terminated. -/
inductive RelayErr where
  | readErr
  | writeErr
  | shortWrite
deriving DecidableEq, Repr

/-- Result of `Thestral.relayHalf`: the accumulated byte count `n`, the
error (`none` after a clean `io.EOF`), the buffers handed to `dst.Write`,
and the byte counts reported to `reportBytesTransfered`. -/
structure RelayHalfResult where
  n : Nat
  err : Option RelayErr
  writes : List (List Nat)
  reports : List Nat
deriving DecidableEq, Repr

/-- `Thestral.relayHalf` over a finite list of source read outcomes and a
list of per-write destination behaviours (exhausted behaviours accept
everything; an exhausted event list is an ended source).  Each iteration:
read; on data, write it, add the accepted count to `n`, report it, then stop
on a write error, stop with `io.ErrShortWrite` if the write accepted fewer
bytes than supplied, and loop otherwise; on `io.EOF` stop with a nil error;
on a read error stop with it. -/
def relayHalf : List ReadEvent → List WriteResp → RelayHalfResult
  | [], _ => ⟨0, none, [], []⟩
  | .eof :: _, _ => ⟨0, none, [], []⟩
  | .rerr :: _, _ => ⟨0, some .readErr, [], []⟩
  | .data bs :: es, resps =>
    match resps.headD (.accept bs.length) with
    | .werr k =>
      let nw := min k bs.length
      ⟨nw, some .writeErr, [bs], [nw]⟩
    | .accept k =>
      let nw := min k bs.length
      if nw < bs.length then ⟨nw, some .shortWrite, [bs], [nw]⟩
      else
        let r := relayHalf es resps.tail
        ⟨nw + r.n, r.err, bs :: r.writes, nw :: r.reports⟩

/-! ## Bidirectional relay (src/app.go, Thestral.doRelay) -/

/-- Why one relay half returned (the cases of the claim: end-of-stream,
read or write I/O error, short write, or the shared context was cancelled
because the sibling ended first). -/
inductive HalfExit where
  | srcEOF
  | srcErr
  | writeErr
  | shortWrite
  | ctxCanceled
deriving DecidableEq, Repr

/-- Externally visible effects of `Thestral.doRelay` and its `relay`
closures, in program order. -/
inductive RelayEffect where
  | cancelRelay
  | closeUpstream
  | closeDownstream
  | closeMonitor
  | logInfo
  | logWarn
deriving DecidableEq, Repr

/-- The `relay` closure spawned for each half: run `relayHalf`, log
according to the outcome (`err == nil` → "connection closed";
`relayCtx.Err() == context.Canceled` → "relay ended"; otherwise a warning),
then the deferred `cancelFunc()` runs. -/
def relayWrapper (exit : HalfExit) : List RelayEffect :=
  (match exit with
   | .srcEOF => [.logInfo]
   | .ctxCanceled => [.logInfo]
   | _ => [.logWarn]) ++ [.cancelRelay]

/-- The effect trace of one `Thestral.doRelay` run, linearised: the two
half closures run to completion, the `<-relayCtx.Done()` wait is passed
(each half's deferred cancel fires it; an enclosing-context cancellation
fires it too), both endpoints are closed unconditionally (a close error is
only logged), and the deferred `tunnelMonitor.Close()` runs last. -/
def doRelayTrace (exit1 exit2 : HalfExit)
    (upCloseErr dnCloseErr : Bool) : List RelayEffect :=
  relayWrapper exit1 ++ relayWrapper exit2 ++
    [.closeUpstream] ++ (if upCloseErr then [.logWarn] else []) ++
    [.closeDownstream] ++ (if dnCloseErr then [.logWarn] else []) ++
    [.closeMonitor]

/-! ## Request dispatcher (src/app.go, Thestral.processOneRequest) -/

/-- The `ProxyError` kinds the dispatcher itself produces, plus the rest of
the closed set carried through unchanged from an upstream. -/
inductive ProxyErrType where
  | generalFailure
  | notAllowed
  | addrUnsupported
  | timeout
  | otherKind (n : Nat)
deriving DecidableEq, Repr

/-- A `ProxyError`: categorised kind plus optional cause. -/
structure ProxyError where
  errType : ProxyErrType
  cause : Option String
deriving DecidableEq, Repr

/-- The `TargetAddress` variants the dispatcher switches over. -/
inductive TargetAddr where
  | tcp4 (ip : Nat)
  | tcp6 (ip : Nat)
  | domain (d : String)
  | unknownAddr
deriving DecidableEq, Repr

/-- The collaborators `processOneRequest` consults: the rule matcher's two
lookups, the insertion-ordered upstream name list (`t.upstreamNames`, always
nonempty after `NewThestralApp`), the pseudo-random pick, and each
upstream's `Request` outcome. -/
structure DispatchEnv where
  matchIP : Nat → String × List String
  matchDomain : String → String × List String
  upstreamNames : List String
  pick : Nat
  request : String → Except ProxyError Unit

/-- Externally visible effects of `Thestral.processOneRequest`, in program
order. -/
inductive DispatchEffect where
  | matchIPCall
  | matchDomainCall
  | upstreamRequestCall (u : String)
  | failReq (pe : ProxyError)
  | successReq
  | monitorAddError (u : String)
  | openTunnelMonitor
  | relayRun
deriving DecidableEq, Repr

/-- The rule-matcher call of the target-address `switch`: `none` for an
unknown variant. -/
def dispatchMatch (env : DispatchEnv) : TargetAddr → Option (String × List String)
  | .tcp4 ip => some (env.matchIP ip)
  | .tcp6 ip => some (env.matchIP ip)
  | .domain d => some (env.matchDomain d)
  | .unknownAddr => none

/-- The matcher-call effect of the `switch`. -/
def matchEffects : TargetAddr → List DispatchEffect
  | .tcp4 _ => [.matchIPCall]
  | .tcp6 _ => [.matchIPCall]
  | .domain _ => [.matchDomainCall]
  | .unknownAddr => []

/-- The upstream-selection block: the value the local `upstreams` holds when
reaching the random pick, or the `ProxyError` the request is failed with.
An unknown variant fails with `ProxyAddrUnsupported`; an empty rule name
substitutes the full upstream set; a matched rule with no upstreams fails
with `ProxyNotAllowed`. -/
def selectUpstreams (env : DispatchEnv) (addr : TargetAddr) :
    Except ProxyError (List String) :=
  match dispatchMatch env addr with
  | none => .error ⟨.addrUnsupported, none⟩
  | some (ruleName, ups) =>
    if ruleName = "" then .ok env.upstreamNames
    else if ups = [] then .error ⟨.notAllowed, none⟩
    else .ok ups

/-- The pseudo-random upstream pick `upstreams[rand.Intn(len(upstreams))]`,
modelled as an arbitrary index `env.pick` reduced below the candidate count
(`rand.Intn` panics on an empty list, which the app-level invariant
`upstreamNames ≠ []` rules out). -/
def pickUpstream (env : DispatchEnv) (cands : List String) : String :=
  cands.getD (env.pick % cands.length) ""

/-- `Thestral.processOneRequest` as its effect trace.  On a `Request` error
the request is failed with that error unchanged and the monitor is notified
once; on success the downstream handshake completes, a tunnel monitor is
opened, and the relay runs. -/
def processOneRequest (env : DispatchEnv) (addr : TargetAddr) :
    List DispatchEffect :=
  matchEffects addr ++
    match selectUpstreams env addr with
    | .error pe => [.failReq pe]
    | .ok cands =>
      .upstreamRequestCall (pickUpstream env cands) ::
        match env.request (pickUpstream env cands) with
        | .error pe => [.failReq pe, .monitorAddError (pickUpstream env cands)]
        | .ok _ => [.successReq, .openTunnelMonitor, .relayRun]

/-- Whether an effect consumes the request (a `Fail` or a `Success`). -/
def consumesRequest : DispatchEffect → Bool
  | .failReq _ => true
  | .successReq => true
  | _ => false

/-- A sample dispatcher environment whose matcher matches nothing
(default-allow) and whose single upstream accepts every request. -/
def sampleEnv : DispatchEnv :=
  ⟨fun _ => ("", []), fun _ => ("", []), ["u1"], 0, fun _ => .ok ()⟩

/-- A sample dispatcher environment whose matcher answers with a matched
rule carrying no upstreams (explicit deny). -/
def denyEnv : DispatchEnv :=
  ⟨fun _ => ("block", []), fun _ => ("block", []), ["u1"], 0, fun _ => .ok ()⟩

/-- A sample dispatcher environment whose upstream always fails with a
timeout `ProxyError`. -/
def failEnv : DispatchEnv :=
  ⟨fun _ => ("", []), fun _ => ("", []), ["u1"], 0,
   fun _ => .error ⟨.timeout, some "connect timed out"⟩⟩

/-! ## Helper lemmas -/

/-- A connection kept by a manager tick was not in the `lastSend == 0`
branch. -/
theorem mem_tick_lastSend_ne (now timeout interval : Int)
    {conns : List ConnState} {c : ConnState}
    (hc : c ∈ runKeepAliveTick now timeout interval conns) : c.lastSend ≠ 0 := by
  intro h0
  have hp := (List.mem_filter.mp hc).2
  rw [Bool.not_eq_true'] at hp
  unfold tickRemoves tickAction at hp
  rw [if_pos h0] at hp
  simp at hp

/-- A KeepAlive kind byte is consumed and the header loop continues. -/
theorem hdr_keepalive_step (s : List Nat) (ls : Int) :
    kcpReadHeaderLoop (kcpKeepAlive :: s) ls = kcpReadHeaderLoop s ls := by
  rw [kcpReadHeaderLoop.eq_def]
  simp [kcpClose, kcpDataPacket, kcpKeepAlive]

/-- A Close kind byte returns end-of-stream and stores lastSend := 0. -/
theorem hdr_close (s : List Nat) (ls : Int) :
    kcpReadHeaderLoop (kcpClose :: s) ls = .inl (.eof, ⟨s, 0, 0⟩) := by
  rw [kcpReadHeaderLoop.eq_def]
  simp [kcpClose]

/-- A Data kind byte reads 4 length bytes; a zero length keeps looping. -/
theorem hdr_data (b0 b1 b2 b3 : Nat) (s2 : List Nat) (ls : Int) :
    kcpReadHeaderLoop (kcpDataPacket :: b0 :: b1 :: b2 :: b3 :: s2) ls =
      if decodeBE32 b0 b1 b2 b3 = 0 then kcpReadHeaderLoop s2 ls
      else .inr (s2, decodeBE32 b0 b1 b2 b3) := by
  rw [kcpReadHeaderLoop.eq_def]
  simp [kcpClose, kcpDataPacket]

/-- Any other kind byte is a protocol error. -/
theorem hdr_proto (h : Nat) (s : List Nat) (ls : Int)
    (h0 : h ≠ kcpDataPacket) (h1 : h ≠ kcpClose) (h2 : h ≠ kcpKeepAlive) :
    kcpReadHeaderLoop (h :: s) ls = .inl (.protoErr h, ⟨s, 0, ls⟩) := by
  rw [kcpReadHeaderLoop.eq_def]
  simp only []
  rw [if_neg h1, if_neg h0, if_neg h2]

/-- Any run of KeepAlive bytes before a frame is skipped transparently. -/
theorem kcpReadHeaderLoop_keepalive (kas : List Nat)
    (hkas : ∀ x ∈ kas, x = kcpKeepAlive) (s : List Nat) (ls : Int) :
    kcpReadHeaderLoop (kas ++ s) ls = kcpReadHeaderLoop s ls := by
  induction kas with
  | nil => rfl
  | cons x t ih =>
    have hx : x = kcpKeepAlive := hkas x (List.mem_cons_self x t)
    subst hx
    rw [List.cons_append, hdr_keepalive_step]
    exact ih fun y hy => hkas y (List.mem_cons_of_mem _ hy)

/-- Big-endian 4-byte round trip for values below 2^32. -/
theorem decodeBE32_be32 (n : Nat) (h : n < 2 ^ 32) :
    decodeBE32 (n / 2 ^ 24 % 256) (n / 2 ^ 16 % 256) (n / 2 ^ 8 % 256) (n % 256) = n := by
  unfold decodeBE32
  omega

/-- With a parsed Data frame pending and enough buffered stream, Read delivers min(bufLen, rdDataLeft) bytes and decrements rdDataLeft by that amount. -/
theorem kcpRead_payload_exact (bufLen left : Nat) (st : List Nat) (ls : Int)
    (hleft : left ≠ 0) (hk : 0 < min bufLen left)
    (hlen : min bufLen left ≤ st.length) :
    kcpRead bufLen ⟨st, left, ls⟩ =
      (.ok (st.take (min bufLen left)),
       ⟨st.drop (min bufLen left), left - min bufLen left, ls⟩) := by
  unfold kcpRead
  simp only []
  rw [if_neg hleft]
  unfold kcpReadPayload
  simp only []
  rw [if_neg (Nat.pos_iff_ne_zero.mp hk)]
  have hne : st.isEmpty = false := by
    cases st with
    | nil => simp at hlen; omega
    | cons a t => rfl
  simp only [hne, Bool.false_eq_true, if_false]
  rw [Nat.min_eq_left hlen]

/-- Draining a nonempty payload takes at least one read. -/
theorem numReads_pos (L k : Nat) (hL : 0 < L) (hk : 0 < k) :
    0 < numReads L k := by
  unfold numReads
  have := (Nat.one_le_div_iff hk (a := L + k - 1)).mpr (by omega)
  omega

/-- A payload no longer than the buffer takes exactly one read. -/
theorem numReads_eq_one (L k : Nat) (hL : 0 < L) (hLk : L ≤ k) :
    numReads L k = 1 := by
  unfold numReads
  exact Nat.div_eq_of_lt_le (by omega) (by omega)

/-- Each full-buffer read reduces the remaining read count by one. -/
theorem numReads_step (L k : Nat) (hk : 0 < k) (hkL : k < L) :
    numReads L k = numReads (L - k) k + 1 := by
  unfold numReads
  rw [show L + k - 1 = (L - k + k - 1) + k by omega, Nat.add_div_right _ hk]

/-- readChunks only looks at states through kcpRead. -/
theorem readChunks_congr (n bufLen : Nat) (s1 s2 : KCPState)
    (h : kcpRead bufLen s1 = kcpRead bufLen s2) :
    readChunks (n + 1) bufLen s1 = readChunks (n + 1) bufLen s2 := by
  simp only [readChunks]
  rw [h]

/-- Reading ceil(L.div bufLen) times drains an L-byte pending payload exactly, leaving the rest of the stream untouched. -/
theorem readChunks_drain (bufLen : Nat) (hbuf : 0 < bufLen) :
    ∀ (n : Nat) (b rest : List Nat) (ls : Int), b ≠ [] →
      n = numReads b.length bufLen →
      readChunks n bufLen ⟨b ++ rest, b.length, ls⟩ = (b, ⟨rest, 0, ls⟩) := by
  intro n
  induction n with
  | zero =>
    intro b rest ls hb hn
    exfalso
    have hpos : 0 < b.length := List.length_pos.mpr hb
    have := numReads_pos b.length bufLen hpos hbuf
    omega
  | succ n ih =>
    intro b rest ls hb hn
    have hpos : 0 < b.length := List.length_pos.mpr hb
    have hk : 0 < min bufLen b.length := lt_min hbuf hpos
    have hmle : min bufLen b.length ≤ b.length := Nat.min_le_right _ _
    have hlen : min bufLen b.length ≤ (b ++ rest).length := by
      rw [List.length_append]; omega
    have hstep := kcpRead_payload_exact bufLen b.length (b ++ rest) ls
      (by omega) hk hlen
    rw [List.take_append_of_le_length hmle,
        List.drop_append_of_le_length hmle] at hstep
    by_cases hbk : b.length ≤ bufLen
    · have hmin : min bufLen b.length = b.length := Nat.min_eq_right hbk
      rw [hmin] at hstep
      have hone : numReads b.length bufLen = 1 :=
        numReads_eq_one _ _ hpos hbk
      have hn0 : n = 0 := by omega
      subst hn0
      simp only [readChunks]
      rw [hstep]
      simp
    · push_neg at hbk
      have hmin : min bufLen b.length = bufLen := Nat.min_eq_left hbk.le
      rw [hmin] at hstep
      have hlb : (b.drop bufLen).length = b.length - bufLen :=
        List.length_drop _ _
      have hnn : n = numReads (b.drop bufLen).length bufLen := by
        rw [hlb]
        have := numReads_step b.length bufLen hbuf hbk
        omega
      have hne2 : b.drop bufLen ≠ [] := by
        intro hcon
        have := congrArg List.length hcon
        rw [hlb] at this
        simp at this
        omega
      have ihh := ih (b.drop bufLen) rest ls hne2 hnn
      rw [hlb] at ihh
      simp only [readChunks]
      rw [hstep]
      dsimp only
      rw [ihh]
      simp [List.take_append_drop]

/-- The framed buffer, exposed byte by byte. -/
theorem kcpFrame_cons (b : List Nat) (rest : List Nat) :
    kcpFrame b ++ rest =
      kcpDataPacket :: (b.length / 2 ^ 24 % 256) :: (b.length / 2 ^ 16 % 256) ::
        (b.length / 2 ^ 8 % 256) :: (b.length % 256) :: (b ++ rest) := by
  simp [kcpFrame, be32, List.cons_append, List.append_assoc]

/-- A Read on a stream of KeepAlives followed by a nonempty Data frame behaves like a Read with the payload pending. -/
theorem kcpRead_frame_skip (bufLen : Nat) (b kas rest : List Nat) (ls : Int)
    (hkas : ∀ x ∈ kas, x = kcpKeepAlive) (hb32 : b.length < 2 ^ 32)
    (hb : b ≠ []) :
    kcpRead bufLen ⟨kas ++ kcpFrame b ++ rest, 0, ls⟩ =
      kcpRead bufLen ⟨b ++ rest, b.length, ls⟩ := by
  have hblen : b.length ≠ 0 := by
    intro hcon
    exact hb (List.length_eq_zero.mp hcon)
  have hhdr : kcpReadHeaderLoop (kas ++ kcpFrame b ++ rest) ls =
      .inr (b ++ rest, b.length) := by
    rw [List.append_assoc, kcpReadHeaderLoop_keepalive kas hkas]
    rw [kcpFrame_cons, hdr_data, decodeBE32_be32 b.length hb32,
      if_neg hblen]
  conv =>
    lhs
    rw [kcpRead]
  rw [if_pos rfl, hhdr]
  rw [kcpRead, if_neg hblen]

end Thestral

namespace Thestral

/-! ## Claim theorems -/

/-- Claim C2: for every relay started over a downstream/upstream endpoint
pair, on every exit path (source end-of-stream, I/O error, short write, or
cancellation of the enclosing context, in either half, with or without close
errors) the relay closes both endpoints exactly once and closes the tunnel
monitor exactly once, and the first half to terminate cancels the shared
relay context (its trace contains the deferred `cancelFunc()`), unblocking
the enclosing wait. -/
theorem doRelay_closes_balanced (e1 e2 : HalfExit) (u d : Bool) :
    (doRelayTrace e1 e2 u d).count .closeUpstream = 1 ∧
    (doRelayTrace e1 e2 u d).count .closeDownstream = 1 ∧
    (doRelayTrace e1 e2 u d).count .closeMonitor = 1 ∧
    RelayEffect.cancelRelay ∈ relayWrapper e1 := by
  cases e1 <;> cases e2 <;> cases u <;> cases d <;> decide

/-- Claim C5, counterexample: `lastSend` transitions to `0` at `Close`, a
`Write` at time 20 then stores a fresh nonzero `lastSend`, and the manager
tick at time 21 does **not** remove the connection from the live list —
refuting "the manager removes it within one tick … including when Write or
keep-alive sends execute after Close has stored lastSend := 0". -/
theorem keepalive_removal_counterexample :
    (connClose ⟨10, 0, 0⟩).lastSend = 0 ∧
    connWrite 20 (connClose ⟨10, 0, 0⟩) ∈
      runKeepAliveTick 21 1000 1000 [connWrite 20 (connClose ⟨10, 0, 0⟩)] := by
  decide

/-- Claim C5 (amended): after every manager tick, every connection remaining
in the live list had `lastSend ≠ 0` when the tick examined it; a connection
whose `lastSend` is still `0` at the tick is removed by that tick.  However,
a `Write` or a keep-alive send executing after `Close` stores a fresh
nonzero `lastSend`, so such a connection survives the next tick. -/
theorem keepalive_tick_removes_closed (now timeout interval wt : Int)
    (conns : List ConnState) (c : ConnState) :
    (∀ dd ∈ runKeepAliveTick now timeout interval conns, dd.lastSend ≠ 0) ∧
    (c.lastSend = 0 → c ∉ runKeepAliveTick now timeout interval conns) ∧
    (connWrite wt (connClose c)).lastSend = wt ∧
    (connSendKeepAlive wt (connClose c)).lastSend = wt := by
  refine ⟨?_, ?_, rfl, rfl⟩
  · intro dd hdd
    exact mem_tick_lastSend_ne now timeout interval hdd
  · intro h0 hc
    exact mem_tick_lastSend_ne now timeout interval hc h0

/-- Claim C5 witness: a closed connection still marked `lastSend = 0` at the
tick is removed by it. -/
theorem keepalive_tick_removes_closed_witness :
    connClose ⟨10, 0, 0⟩ ∉
      runKeepAliveTick 21 1000 1000 [connClose ⟨10, 0, 0⟩] :=
  (keepalive_tick_removes_closed 21 1000 1000 5
    [connClose ⟨10, 0, 0⟩] (connClose ⟨10, 0, 0⟩)).2.1 rfl

/-- Claim C6: every relay half iteration reads up to the fixed 32 KiB pool
buffer size from the source, writes exactly the bytes read to the
destination, and reports the per-write byte count; source end-of-stream
terminates the half with a nil error and the accumulated byte count, and a
destination write accepting fewer bytes than supplied terminates the half
with a short-write error. -/
theorem relayHalf_behavior (chunks : List (List Nat)) (bs : List Nat) (k : Nat)
    (hc : ∀ c ∈ chunks, c.length ≤ relayBufferSize)
    (hb : bs.length ≤ relayBufferSize) (hk : k < bs.length) :
    relayBufferSize = 32 * 1024 ∧
    relayHalf (chunks.map .data ++ [.eof]) [] =
      ⟨(chunks.map List.length).sum, none, chunks, chunks.map List.length⟩ ∧
    relayHalf [.data bs] [.accept k] = ⟨k, some .shortWrite, [bs], [k]⟩ := by
  refine ⟨rfl, ?_, ?_⟩
  · induction chunks with
    | nil => rfl
    | cons c cs ih =>
      have ih2 := ih fun x hx => hc x (List.mem_cons_of_mem c hx)
      simp [relayHalf, ih2]
  · simp [relayHalf, Nat.min_eq_left hk.le, hk]

/-- Claim C6 witness. -/
theorem relayHalf_behavior_witness :
    relayHalf [.data [1, 2], .data [3], .eof] [] =
      ⟨3, none, [[1, 2], [3]], [2, 1]⟩ ∧
    relayHalf [.data [7, 8]] [.accept 1] =
      ⟨1, some .shortWrite, [[7, 8]], [1]⟩ := by
  have h := relayHalf_behavior [[1, 2], [3]] [7, 8] 1
    (by decide) (by decide) (by decide)
  exact ⟨h.2.1, h.2.2⟩

/-- Claim C9: a `Dial` whose context is cancelled (with error `e`) before
the underlying KCP dial completes returns the context's error, whatever the
underlying dial would have produced; and the helper goroutine's single send
into the freshly made capacity-1 result channel never blocks. -/
theorem dial_ctx_cancel (e : String) (outcome : DialOutcome) :
    kcpDial (some e) outcome = .err e ∧
    chanSendBlocks dialResultChan = false :=
  ⟨rfl, rfl⟩

/-- Claim C10: a successful KCP `Write(payload)` returns the number of bytes
the underlying session accepted of the framed buffer; the framed buffer is 5
bytes longer than the payload, so a session accepting the whole buffer makes
`Write` return `payload length + 5`, not the payload length. -/
theorem kcp_write_return_count (b : List Nat)
    (sessionWrite : List Nat → Except String Nat)
    (hb : b.length ≤ 2 ^ 32 - 1) :
    kcpConnWrite sessionWrite b = sessionWrite (kcpFrame b) ∧
    (kcpFrame b).length = b.length + 5 ∧
    kcpConnWrite (fun l => .ok l.length) b = .ok (b.length + 5) ∧
    b.length + 5 ≠ b.length := by
  have hlen : (kcpFrame b).length = b.length + 5 := by
    simp [kcpFrame, be32]
  refine ⟨?_, hlen, ?_, by omega⟩
  · unfold kcpConnWrite
    rw [if_neg (by omega)]
  · unfold kcpConnWrite
    rw [if_neg (by omega)]
    simp [hlen]

/-- Claim C10 witness: a 1-byte payload through a fully accepting session
returns 6. -/
theorem kcp_write_return_count_witness :
    kcpConnWrite (fun l => .ok l.length) [9] = .ok 6 :=
  (kcp_write_return_count [9] (fun l => .ok l.length) (by norm_num)).2.2.1

/-- Claim C3: for every `ProxyRequest` received by the dispatcher, exactly
one of its `Success` or `Fail` methods is invoked, over all processing
paths: unsupported target-address variant, rule denial, upstream connect
failure, and successful connect followed by relay.  (The hypothesis is the
app-level invariant from `NewThestralApp`: at least one upstream exists.) -/
theorem processOneRequest_consumes_once (env : DispatchEnv)
    (addr : TargetAddr) (hups : env.upstreamNames ≠ []) :
    (processOneRequest env addr).countP consumesRequest = 1 := by
  have hm : (matchEffects addr).countP consumesRequest = 0 := by
    cases addr <;> rfl
  unfold processOneRequest
  rw [List.countP_append, hm]
  cases hs : selectUpstreams env addr with
  | error pe => simp [List.countP_cons, consumesRequest]
  | ok cands =>
    cases hr : env.request (pickUpstream env cands) with
    | error pe => simp [hr, List.countP_cons, consumesRequest]
    | ok u => simp [hr, List.countP_cons, consumesRequest]

/-- Claim C3 witness: a domain request through the default-allow sample
environment is consumed exactly once. -/
theorem processOneRequest_consumes_once_witness :
    (processOneRequest sampleEnv (.domain "example.com")).countP
      consumesRequest = 1 :=
  processOneRequest_consumes_once sampleEnv (.domain "example.com") (by simp [sampleEnv])

/-- Claim C7: a target address that is neither IPv4, IPv6 nor domain-name is
failed with `AddressUnsupported` and no rule-matcher lookup happens (the
trace is the single `Fail`); a matcher answer with an empty rule name makes
the full upstream set the candidate list; a matcher answer with a non-empty
rule name and an empty candidate list is failed with `NotAllowed` and no
upstream is contacted (the trace holds no `Request` call). -/
theorem dispatch_selection_rules (env : DispatchEnv) (addr : TargetAddr)
    (r : String) (ups : List String) :
    processOneRequest env .unknownAddr =
      [.failReq ⟨.addrUnsupported, none⟩] ∧
    (dispatchMatch env addr = some ("", ups) →
      selectUpstreams env addr = .ok env.upstreamNames) ∧
    (dispatchMatch env addr = some (r, ups) → r ≠ "" → ups = [] →
      processOneRequest env addr =
        matchEffects addr ++ [.failReq ⟨.notAllowed, none⟩]) := by
  refine ⟨rfl, ?_, ?_⟩
  · intro hmatch
    unfold selectUpstreams
    rw [hmatch]
    simp
  · intro hmatch hr hnil
    subst hnil
    unfold processOneRequest selectUpstreams
    rw [hmatch]
    simp [hr]

/-- Claim C7 witness: default-allow on a domain target in the sample
environment, and explicit denial on an IPv4 target in the denying
environment. -/
theorem dispatch_selection_rules_witness :
    selectUpstreams sampleEnv (.domain "example.com") = .ok ["u1"] ∧
    processOneRequest denyEnv (.tcp4 5) =
      [.matchIPCall, .failReq ⟨.notAllowed, none⟩] ∧
    processOneRequest sampleEnv .unknownAddr =
      [.failReq ⟨.addrUnsupported, none⟩] := by
  refine ⟨?_, ?_, ?_⟩
  · exact (dispatch_selection_rules sampleEnv (.domain "example.com")
      "" []).2.1 rfl
  · exact (dispatch_selection_rules denyEnv (.tcp4 5)
      "block" []).2.2 rfl (by simp) rfl
  · exact (dispatch_selection_rules sampleEnv .unknownAddr "" []).1

/-- Claim C8: when the selected upstream's `Request` returns a `ProxyError`,
the dispatcher fails the request with that error unchanged, notifies the
monitor of exactly one error against the selected upstream, and returns
without `Success` and without opening a tunnel monitor. -/
theorem dispatch_upstream_error_path (env : DispatchEnv) (addr : TargetAddr)
    (cands : List String) (selected : String) (pe : ProxyError)
    (hs : selectUpstreams env addr = .ok cands)
    (hsel : pickUpstream env cands = selected)
    (hr : env.request selected = .error pe) :
    processOneRequest env addr =
      matchEffects addr ++
        [.upstreamRequestCall selected, .failReq pe,
         .monitorAddError selected] ∧
    (processOneRequest env addr).count (.failReq pe) = 1 ∧
    (processOneRequest env addr).count (.monitorAddError selected) = 1 ∧
    (processOneRequest env addr).count .successReq = 0 ∧
    (processOneRequest env addr).count .openTunnelMonitor = 0 := by
  have htrace : processOneRequest env addr =
      matchEffects addr ++
        [.upstreamRequestCall selected, .failReq pe,
         .monitorAddError selected] := by
    unfold processOneRequest
    rw [hs]
    simp only [hsel, hr]
  refine ⟨htrace, ?_, ?_, ?_, ?_⟩ <;>
    rw [htrace, List.count_append] <;>
    cases addr <;>
    simp [matchEffects, List.count_cons]

/-- Claim C8 witness: the failing sample environment fails a domain request
with the upstream's timeout error unchanged and reports it once. -/
theorem dispatch_upstream_error_path_witness :
    processOneRequest failEnv (.domain "example.com") =
      [.matchDomainCall, .upstreamRequestCall "u1",
       .failReq ⟨.timeout, some "connect timed out"⟩,
       .monitorAddError "u1"] :=
  (dispatch_upstream_error_path failEnv (.domain "example.com")
    ["u1"] "u1" ⟨.timeout, some "connect timed out"⟩ rfl rfl rfl).1

/-- Claim C1: for every KCP connection pair and every payload of length at
most 2^32 - 1 bytes, a successful `Write(payload)` emits exactly one Data
frame (kind byte 0x00, 4-byte big-endian length, then the payload), and the
peer's successive `Read`s reassemble exactly that payload, in order, with
any interleaved KeepAlive frames skipped transparently; a `Write` whose
payload is longer than 2^32 - 1 bytes is rejected with an error and emits
nothing. -/
theorem kcp_write_read_roundtrip (b kas rest : List Nat) (ls : Int)
    (bufLen : Nat) (hb : b.length ≤ 2 ^ 32 - 1)
    (hkas : ∀ x ∈ kas, x = kcpKeepAlive) (hbuf : 0 < bufLen) :
    kcpWrite b = .ok (kcpFrame b) ∧
    (∀ big : List Nat, 2 ^ 32 - 1 < big.length →
      kcpWrite big = .error "send buffer size exceeds limitation") ∧
    (readChunks (numReads b.length bufLen) bufLen
        ⟨kas ++ kcpFrame b ++ rest, 0, ls⟩).1 = b ∧
    (0 < b.length →
      (readChunks (numReads b.length bufLen) bufLen
          ⟨kas ++ kcpFrame b ++ rest, 0, ls⟩).2 = ⟨rest, 0, ls⟩) := by
  have hw : kcpWrite b = .ok (kcpFrame b) := by
    unfold kcpWrite
    rw [if_neg (by omega)]
  have hover : ∀ big : List Nat, 2 ^ 32 - 1 < big.length →
      kcpWrite big = .error "send buffer size exceeds limitation" := by
    intro big hbig
    unfold kcpWrite
    rw [if_pos (by omega)]
  by_cases hb0 : b = []
  · subst hb0
    have h0 : numReads 0 bufLen = 0 := by
      unfold numReads
      exact Nat.div_eq_of_lt (by omega)
    refine ⟨hw, hover, ?_, ?_⟩
    · rw [List.length_nil, h0]; rfl
    · intro hcon; simp at hcon
  · have hfull : readChunks (numReads b.length bufLen) bufLen
        ⟨kas ++ kcpFrame b ++ rest, 0, ls⟩ = (b, ⟨rest, 0, ls⟩) := by
      have hpos : 0 < b.length := List.length_pos.mpr hb0
      obtain ⟨m, hm⟩ : ∃ m, numReads b.length bufLen = m + 1 :=
        ⟨numReads b.length bufLen - 1,
          by have := numReads_pos b.length bufLen hpos hbuf; omega⟩
      rw [hm]
      rw [readChunks_congr m bufLen _ _
        (kcpRead_frame_skip bufLen b kas rest ls hkas (by omega) hb0)]
      rw [← hm]
      exact readChunks_drain bufLen hbuf _ b rest ls hb0 rfl
    refine ⟨hw, hover, by rw [hfull], fun _ => by rw [hfull]⟩

/-- Claim C1 witness: the payload [5, 6], behind one KeepAlive frame and
ahead of trailing stream bytes, round-trips through 1-byte reads. -/
theorem kcp_write_read_roundtrip_witness :
    kcpWrite [5, 6] = .ok (kcpFrame [5, 6]) ∧
    (readChunks (numReads 2 1) 1
        ⟨[kcpKeepAlive] ++ kcpFrame [5, 6] ++ [7], 0, 3⟩).1 = [5, 6] ∧
    (readChunks (numReads 2 1) 1
        ⟨[kcpKeepAlive] ++ kcpFrame [5, 6] ++ [7], 0, 3⟩).2 = ⟨[7], 0, 3⟩ := by
  have h := kcp_write_read_roundtrip [5, 6] [kcpKeepAlive] [7] 3 1
    (by norm_num) (by simp) (by norm_num)
  exact ⟨h.1, h.2.2.1, h.2.2.2 (by norm_num)⟩

/-- Claim C4, counterexample.  First: on a zero-length Data frame the loop
is not exited; with stream `[0, 0,0,0,0, 1]` the claimed behaviour (exit the
loop with `rdDataLeft = 0`, then read 0 payload bytes and return them) would
give `.ok []`, but the code keeps looping, consumes the following Close
frame and returns end-of-stream.  Second: end-of-stream is not sticky; after
a Close frame was received (`lastSend = 0`), a following Data frame is
delivered by the next `Read` instead of a repeated end-of-stream. -/
theorem kcpRead_claim_counterexample :
    (kcpRead 1 ⟨[0, 0, 0, 0, 0, 1], 0, 7⟩ = (.eof, ⟨[], 0, 0⟩) ∧
      ReadResult.eof ≠ .ok []) ∧
    (kcpRead 1 ⟨[1, 0, 0, 0, 0, 1, 42], 0, 7⟩ =
        (.eof, ⟨[0, 0, 0, 0, 1, 42], 0, 0⟩) ∧
      kcpRead 1 ⟨[0, 0, 0, 0, 1, 42], 0, 0⟩ = (.ok [42], ⟨[], 0, 0⟩) ∧
      ReadResult.ok [42] ≠ .eof) := by
  decide

/-- Claim C4 (amended): for every KCP Read call, while `rdDataLeft == 0` it
reads one header byte; on Close it stores `lastSend := 0` and returns
end-of-stream with zero bytes; on KeepAlive it consumes the byte and loops;
on Data it reads a 4-byte big-endian length into `rdDataLeft` and exits the
loop only when that length is nonzero, continuing the loop on a zero
length; on any other byte it returns a protocol error; it then reads
`min(len(userBuffer), rdDataLeft)` bytes into the caller, decrements
`rdDataLeft` by the amount read, and returns; and after a Close frame has
been received a subsequent Read parses the stream afresh, returning
end-of-stream again when the next frame is again Close but delivering data
when a Data frame follows. -/
theorem kcpRead_state_machine_amended (bufLen : Nat) (s : List Nat) (ls : Int)
    (b0 b1 b2 b3 hByte left : Nat) :
    kcpRead bufLen ⟨kcpClose :: s, 0, ls⟩ = (.eof, ⟨s, 0, 0⟩) ∧
    kcpRead bufLen ⟨kcpKeepAlive :: s, 0, ls⟩ = kcpRead bufLen ⟨s, 0, ls⟩ ∧
    (decodeBE32 b0 b1 b2 b3 ≠ 0 →
      kcpRead bufLen ⟨kcpDataPacket :: b0 :: b1 :: b2 :: b3 :: s, 0, ls⟩ =
        kcpReadPayload bufLen s (decodeBE32 b0 b1 b2 b3) ls) ∧
    (decodeBE32 b0 b1 b2 b3 = 0 →
      kcpRead bufLen ⟨kcpDataPacket :: b0 :: b1 :: b2 :: b3 :: s, 0, ls⟩ =
        kcpRead bufLen ⟨s, 0, ls⟩) ∧
    (hByte ≠ kcpDataPacket → hByte ≠ kcpClose → hByte ≠ kcpKeepAlive →
      kcpRead bufLen ⟨hByte :: s, 0, ls⟩ = (.protoErr hByte, ⟨s, 0, ls⟩)) ∧
    (left ≠ 0 → 0 < min bufLen left → min bufLen left ≤ s.length →
      kcpRead bufLen ⟨s, left, ls⟩ =
        (.ok (s.take (min bufLen left)),
         ⟨s.drop (min bufLen left), left - min bufLen left, ls⟩)) ∧
    kcpRead bufLen ⟨kcpClose :: kcpClose :: s, 0, ls⟩ =
      (.eof, ⟨kcpClose :: s, 0, 0⟩) := by
  refine ⟨?_, ?_, ?_, ?_, ?_, ?_, ?_⟩
  · conv => lhs; rw [kcpRead]
    rw [if_pos rfl, hdr_close]
  · conv => lhs; rw [kcpRead]
    conv => rhs; rw [kcpRead]
    rw [if_pos rfl, if_pos rfl, hdr_keepalive_step]
  · intro hdec
    conv => lhs; rw [kcpRead]
    rw [if_pos rfl, hdr_data, if_neg hdec]
  · intro hdec
    conv => lhs; rw [kcpRead]
    conv => rhs; rw [kcpRead]
    rw [if_pos rfl, if_pos rfl, hdr_data, if_pos hdec]
  · intro h0 h1 h2
    conv => lhs; rw [kcpRead]
    rw [if_pos rfl, hdr_proto hByte s ls h0 h1 h2]
  · exact kcpRead_payload_exact bufLen left s ls
  · conv => lhs; rw [kcpRead]
    rw [if_pos rfl, hdr_close]

/-- Claim C4 witness: a Close frame yields end-of-stream; a nonzero Data
header hands over to the payload phase; a pending 1-byte payload is read
exactly. -/
theorem kcpRead_state_machine_amended_witness :
    kcpRead 1 ⟨[1, 9], 0, 7⟩ = (.eof, ⟨[9], 0, 0⟩) ∧
    kcpRead 1 ⟨[0, 0, 0, 0, 1, 42], 0, 0⟩ = kcpReadPayload 1 [42] 1 0 ∧
    kcpRead 2 ⟨[42, 43], 1, 5⟩ = (.ok [42], ⟨[43], 0, 5⟩) := by
  refine ⟨(kcpRead_state_machine_amended 1 [9] 7 0 0 0 0 3 1).1, ?_, ?_⟩
  · exact (kcpRead_state_machine_amended 1 [42] 0 0 0 0 1 3 1).2.2.1
      (by decide)
  · exact (kcpRead_state_machine_amended 2 [42, 43] 5 0 0 0 0 3 1).2.2.2.2.2.1
      (by decide) (by decide) (by decide)

end Thestral
